import Mathlib

/-
Shallow embedding of the vk-tower core (lib/vk_tower/registry.py and
lib/vk_tower/registry_xml.py) and proofs about it.

Python dictionaries are modelled as association lists in insertion order,
Python sets as lists with add-if-absent (insertion order), Python exceptions
as an explicit error type threaded through Except.  While-loops are given an
explicit fuel parameter; running out of fuel is a distinguished outcome that
never occurs in the runs the theorems talk about.
-/

namespace VkTower

/-- Generic JSON tree, the shape produced by the json/json5 loaders. -/
inductive Json where
  | null : Json
  | bool (b : Bool) : Json
  | num (n : Int) : Json
  | str (s : String) : Json
  | arr (xs : List Json) : Json
  | obj (kvs : List (String × Json)) : Json

/-- First-match association-list lookup, the model of Python dict lookup
(Python dict keys are unique, so first match is the match). -/
def alookup {α : Type} : List (String × α) → String → Option α
  | [], _ => none
  | (k, v) :: t, q => if k = q then some v else alookup t q

/-- Add an element to a Python set modelled as an insertion-ordered list. -/
def addName (l : List String) (n : String) : List String :=
  if n ∈ l then l else l ++ [n]

/-- The Python exceptions that the embedded code can raise. -/
inductive PyErr where
  | profileNotFound (name : String)
  | registryFileNotFound (name : String)
  | nameError (name : String)
  | attributeError (msg : String)
  | assertionError
  | xmlError (msg : String) (hasElement : Bool)
  | outOfFuel
  deriving Repr, DecidableEq

/-- One profile object inside a profiles document.  Field `profileRefs` is
the "profiles" member (dig default []), `capabilities` and `optionals` are
the raw JSON lists of those members (dict.get default []). -/
structure ProfileObj where
  profileRefs : List String := []
  capabilities : List Json := []
  optionals : List Json := []

/-- The parsed data of a profiles file: the optional top-level "profiles"
and "capabilities" dictionaries. -/
structure ProfilesData where
  profiles : Option (List (String × ProfileObj)) := none
  capabilities : Option (List (String × Json)) := none

/-- ProfilesFile.get_profile_obj with missing_ok=True:
dig(self.data, "profiles", name). -/
def getProfileObj (d : ProfilesData) (name : String) : Option ProfileObj :=
  match d.profiles with
  | none => none
  | some t => alookup t name

/-- ProfilesFile.iter_profile_names. -/
def iterProfileNames (d : ProfilesData) : List String :=
  match d.profiles with
  | none => []
  | some t => t.map Prod.fst

/-- ProfileInternalDeps: the three name sets, kept in insertion order. -/
structure IDeps where
  localProfileNames : List String
  localCapNames : List String
  externalProfileNames : List String
  deriving Repr, DecidableEq

/-- The while-loop of collect_profiles inside
ProfilesFile.get_profile_internal_deps.  The stack is kept top-at-head, so
Python list.append is cons and list.pop takes the head.  The assert
`profile_name not in visited` is the assertionError outcome. -/
def collectProfilesLoop (d : ProfilesData) :
    Nat → List String → List String → List String → List String →
    Except PyErr (List String × List String)
  | 0, _, _, _, _ => .error .outOfFuel
  | fuel + 1, visited, stack, localP, extP =>
    match stack with
    | [] => .ok (localP, extP)
    | name :: rest =>
      if name ∈ visited then .error .assertionError
      else
        let visited' := visited ++ [name]
        match getProfileObj d name with
        | none =>
            collectProfilesLoop d fuel visited' rest localP (addName extP name)
        | some obj =>
            let stack' := obj.profileRefs.foldl
              (fun s dep => if dep ∈ visited' then s else dep :: s) rest
            collectProfilesLoop d fuel visited' stack' (addName localP name) extP

/-- The while-loop of collect_caps: flatten one capabilities/optionals
stack.  A non-string non-list element reaches `self.file.reg_file.path`;
ProfilesFile has no attribute `file`, so Python raises AttributeError there. -/
def collectCapsLoop : Nat → List String → List Json → Except PyErr (List String)
  | 0, _, _ => .error .outOfFuel
  | fuel + 1, acc, stack =>
    match stack with
    | [] => .ok acc
    | cap :: rest =>
      match cap with
      | .str s => collectCapsLoop fuel (addName acc s) rest
      | .arr subs => collectCapsLoop fuel acc (subs.foldl (fun st c => c :: st) rest)
      | _ => .error (.attributeError "ProfilesFile object has no attribute file")

/-- The outer for-loop of collect_caps over local_profile_names.
get_profile_obj is called with missing_ok=False here. -/
def collectCaps (d : ProfilesData) (fuel : Nat) :
    List String → List String → Except PyErr (List String)
  | acc, [] => .ok acc
  | acc, pname :: ps =>
    match getProfileObj d pname with
    | none => .error (.profileNotFound pname)
    | some obj =>
      match collectCapsLoop fuel acc ((obj.capabilities ++ obj.optionals).reverse) with
      | .error e => .error e
      | .ok acc' => collectCaps d fuel acc' ps

/-- ProfilesFile.get_profile_internal_deps. -/
def getProfileInternalDeps (d : ProfilesData) (fuel : Nat) (name : String) :
    Except PyErr IDeps :=
  match collectProfilesLoop d fuel [] [name] [] [] with
  | .error e => .error e
  | .ok (localP, extP) =>
    match collectCaps d fuel [] localP with
    | .error e => .error e
    | .ok caps => .ok ⟨localP, caps, extP⟩

/-- ProfilesFile.trim_to_profile.  `dict.pop` over the bad names keeps the
remaining entries in insertion order, i.e. it is a filter.  When the file has
no "profiles" or no "capabilities" member, `None.keys()` raises
AttributeError. -/
def trimToProfile (d : ProfilesData) (fuel : Nat) (name : String) :
    Except PyErr ProfilesData :=
  match getProfileInternalDeps d fuel name with
  | .error e => .error e
  | .ok deps =>
    match d.profiles with
    | none => .error (.attributeError "NoneType object has no attribute keys")
    | some ps =>
      let good := deps.localProfileNames ++ deps.externalProfileNames
      let ps' := ps.filter (fun kv => kv.1 ∈ good)
      match d.capabilities with
      | none => .error (.attributeError "NoneType object has no attribute keys")
      | some cs =>
        let cs' := cs.filter (fun kv => kv.1 ∈ deps.localCapNames)
        .ok { profiles := some ps', capabilities := some cs' }

/-- A discovered profiles file, as the registry sees it: the unique
RegistryFile name and the parsed data. -/
structure PFile where
  name : String
  data : ProfilesData

/-- The mutable state of Registry that profile loading touches: the
committed profile table (profile name to owning file name, insertion
ordered) and the set of loaded file names. -/
structure RegState where
  profiles : List (String × String)
  loadedFiles : List String
  deriving Repr, DecidableEq

/-- Registry.__load_profiles_file.  On a name collision the code executes
`raise ProfileRedefinitionError(orig_profile=profile, bad_reg_file=reg_file)`;
the local variable `reg_file` is never bound in that scope, so Python raises
NameError while evaluating the arguments, before any commit happens. -/
def loadProfilesFile (st : RegState) (f : PFile) :
    Except PyErr (List String × RegState) :=
  if f.name ∈ st.loadedFiles then .ok ([], st)
  else
    let names := iterProfileNames f.data
    if names.any (fun n => (alookup st.profiles n).isSome) then
      .error (.nameError "reg_file")
    else
      .ok (names,
           { profiles := st.profiles ++ names.map (fun n => (n, f.name)),
             loadedFiles := st.loadedFiles ++ [f.name] })

/-- Suffix of a discovered profiles-document file. -/
inductive Ext where
  | json : Ext
  | json5 : Ext
  deriving Repr, DecidableEq

/-- The identity of a file found on disk: which registry root it came from
and its stem and suffix under profiles/ of that root. -/
structure FoundFile where
  rootIdx : Nat
  stem : String
  ext : Ext
  deriving Repr, DecidableEq

/-- One registry root: the stems of the files matched by the glob
profiles/**/*.json resp. profiles/**/*.json5, in glob order. -/
structure Root where
  profilesJson : List String := []
  profilesJson5 : List String := []

/-- The filename filter re.match applied to `stem + suffix`:
the pattern (VP|vp)_.+\.(json|json5) needs the VP_ or vp_ start and at
least one character between the underscore and the suffix dot. -/
def isVpStem (s : String) : Bool :=
  (decide (s.data.take 3 = ['V', 'P', '_']) || decide (s.data.take 3 = ['v', 'p', '_']))
    && decide (3 < s.data.length)

/-- One pass of Registry.__iter_glob_files for a fixed glob: every root in
priority order contributes its matches. -/
def globPass (roots : List Root) (e : Ext) : List FoundFile :=
  roots.enum.flatMap (fun p =>
    (match e with
     | .json => p.2.profilesJson
     | .json5 => p.2.profilesJson5).map (fun s => ⟨p.1, s, e⟩))

/-- The full scan sequence of Registry.__collect_profiles_files: the chain
of the json pass over all roots followed by the json5 pass over all roots,
filtered by the VP_ filename pattern. -/
def profilesScanSeq (roots : List Root) : List FoundFile :=
  (globPass roots .json ++ globPass roots .json5).filter (fun f => isVpStem f.stem)

/-- Registry.__collect_profiles_files: dict.setdefault keyed by the stem. -/
def collectProfilesFiles (roots : List Root) : List (String × FoundFile) :=
  (profilesScanSeq roots).foldl
    (fun acc f => if (alookup acc f.stem).isSome then acc else acc ++ [(f.stem, f)])
    []

/-- Registry.get_vk_xml_file.  The code tests `reg_file.name is not None`:
when the lookup hit, the name is a string and the file is returned; when the
lookup missed, reg_file is None and the attribute access raises
AttributeError before the missing_ok test is ever reached. -/
def getVkXmlFile (vkxmlFiles : List (String × String)) (missingOk : Bool) :
    Except PyErr (Option String) :=
  match alookup vkxmlFiles "vk.xml" with
  | some path => .ok (some path)
  | none => .error (.attributeError "NoneType object has no attribute name")

/-- normalize_vk_name, with fuel standing in for the unbounded while-loop:
none models a run that does not terminate within the fuel. -/
def normalizeVkName : Nat → List (String × String) → String → Option String
  | 0, _, _ => none
  | fuel + 1, t, n =>
    match alookup t n with
    | none => some n
    | some m => normalizeVkName fuel t m

/-- A chain that terminates never repeats a name (the step function is
deterministic), so it takes at most one step per table entry; fuel
length + 1 therefore computes exactly the Python result, and returns none
exactly when the Python loop diverges. -/
def normName (t : List (String × String)) (n : String) : Option String :=
  normalizeVkName (t.length + 1) t n

/-- The limittype vocabulary (class LimitType). -/
inductive LimitType where
  | bitmask | bits | exact | max | min | mul | noauto | not_ | pot | range | struct
  deriving Repr, DecidableEq

/-- The XML attribute text of each tag (enum value, `not_` prints "not"). -/
def LimitType.toXmlName : LimitType → String
  | .bitmask => "bitmask"
  | .bits => "bits"
  | .exact => "exact"
  | .max => "max"
  | .min => "min"
  | .mul => "mul"
  | .noauto => "noauto"
  | .not_ => "not"
  | .pot => "pot"
  | .range => "range"
  | .struct => "struct"

/-- Limit.LIMIT_TYPE_SLOTS[0]. -/
def limitTypeSlots0 : List LimitType :=
  [.bitmask, .bits, .exact, .max, .min, .noauto, .not_, .range, .struct]

/-- Limit.LIMIT_TYPE_SLOTS[1]. -/
def limitTypeSlots1 : List LimitType :=
  [.mul, .pot]

/-- Limit.__post_init__: the validation run on the parsed tag list when a
Limit is constructed.  Every error it raises is an XmlError built from a
message only, with no element attached. -/
def limitPostInit (ts : List LimitType) : Except PyErr Unit :=
  match ts with
  | [] => .error (.xmlError "empty @limittype" false)
  | t0 :: rest =>
    if t0 ∈ limitTypeSlots0 then
      match rest with
      | [] => .ok ()
      | t1 :: rest2 =>
        if t1 ∈ limitTypeSlots1 then
          match rest2 with
          | [] => .ok ()
          | _ :: _ => .error (.xmlError "unexpected @limittype={s!r}" false)
        else .error (.xmlError "unexpected @limittype={s!r}" false)
    else .error (.xmlError "unexpected @limittype={s!r}" false)

/-- The RegistryXML data that name normalization needs: the alias table and
the struct layouts (struct name to ordered member name/base type pairs). -/
structure RegXML where
  aliases : List (String × String) := []
  structInfo : List (String × List (String × String)) := []

/-- Is this JSON value the null literal? -/
def Json.isNull : Json → Bool
  | .null => true
  | _ => false

/-- The member loop of struct_to_json_obj, parameterized by the recursive
call so that the recursion is on the fuel of structToJsonObj.  dict.get
returns None both for a missing member and for a member whose value is the
JSON null, so both are skipped.  A member whose declared base type is a
known struct must hold an object; Python would fail the attribute access
`struct_obj.get` inside the recursive call otherwise. -/
def structMembersLoop
    (recur : String → List (String × Json) → Except PyErr (List (String × Json)))
    (xml : RegXML) (structObj : List (String × Json)) :
    List (String × String) → Except PyErr (List (String × Json))
  | [] => .ok []
  | (mName, mBase) :: rest =>
    match alookup structObj mName with
    | none => structMembersLoop recur xml structObj rest
    | some v =>
      if v.isNull then structMembersLoop recur xml structObj rest
      else
        match normName xml.aliases mBase with
        | none => .error .outOfFuel
        | some nBase =>
          if (alookup xml.structInfo nBase).isSome then
            match v with
            | .obj kvs =>
              match recur nBase kvs with
              | .error e => .error e
              | .ok kvs' =>
                match structMembersLoop recur xml structObj rest with
                | .error e => .error e
                | .ok out => .ok ((mName, Json.obj kvs') :: out)
            | _ => .error (.attributeError "object has no attribute get")
          else
            match structMembersLoop recur xml structObj rest with
            | .error e => .error e
            | .ok out => .ok ((mName, v) :: out)

/-- struct_to_json_obj.  An unknown struct name returns the instance
unchanged (after a warning); otherwise the new object is built by walking
the layout in declared order. -/
def structToJsonObj (xml : RegXML) :
    Nat → String → List (String × Json) → Except PyErr (List (String × Json))
  | 0, _, _ => .error .outOfFuel
  | fuel + 1, structName, structObj =>
    match normName xml.aliases structName with
    | none => .error .outOfFuel
    | some nName =>
      match alookup xml.structInfo nName with
      | none => .ok structObj
      | some members =>
        structMembersLoop (fun nm kv => structToJsonObj xml fuel nm kv) xml structObj members

/-- Drop the members of an object whose value is the JSON null literal. -/
def stripNullMembers (kvs : List (String × Json)) : List (String × Json) :=
  kvs.filter (fun kv => !kv.2.isNull)

/-- Did the Except-modelled Python call return normally? -/
def exOk {ε α : Type} : Except ε α → Bool
  | .ok _ => true
  | .error _ => false

/- ## General lemmas about the association-list model -/

theorem alookup_append {α : Type} (l1 l2 : List (String × α)) (s : String) :
    alookup (l1 ++ l2) s =
      match alookup l1 s with
      | some v => some v
      | none => alookup l2 s := by
  induction l1 with
  | nil => simp [alookup]
  | cons kv t ih =>
    obtain ⟨k, v⟩ := kv
    by_cases h : k = s
    · simp [alookup, h]
    · simp [alookup, h, ih]

theorem alookup_eq_none_iff {α : Type} (l : List (String × α)) (s : String) :
    alookup l s = none ↔ s ∉ l.map Prod.fst := by
  induction l with
  | nil => simp [alookup]
  | cons kv t ih =>
    obtain ⟨k, v⟩ := kv
    by_cases h : k = s
    · simp [alookup, h]
    · simp [alookup, h, ih, Ne.symm h]

theorem alookup_filter_key {α : Type} (p : String → Bool) (l : List (String × α)) (s : String) :
    alookup (l.filter (fun kv => p kv.1)) s =
      if p s then alookup l s else none := by
  induction l with
  | nil => simp [alookup]
  | cons kv t ih =>
    obtain ⟨k, v⟩ := kv
    rw [List.filter_cons]
    by_cases hp : p k
    · rw [if_pos (by simpa using hp)]
      by_cases hk : k = s
      · subst hk
        simp [alookup, hp]
      · simp [alookup, hk, ih]
    · rw [if_neg (by simpa using hp)]
      rw [ih]
      by_cases hk : k = s
      · subst hk
        simp [alookup, hp]
      · simp [alookup, hk]

theorem mem_addName (l : List String) (n x : String) (h : x ∈ l) : x ∈ addName l n := by
  unfold addName
  split
  · exact h
  · exact List.mem_append_left _ h

theorem self_mem_addName (l : List String) (n : String) : n ∈ addName l n := by
  unfold addName
  split
  · assumption
  · simp

/- ## Concrete documents and registries used as inputs below -/

/-- A diamond of local references: A to C, C to D and E, E to D.
E and C both reference D while D is still unvisited. -/
def docDiamond : ProfilesData :=
  { profiles := some
      [("A", { profileRefs := ["C"] }),
       ("C", { profileRefs := ["D", "E"] }),
       ("E", { profileRefs := ["D"] }),
       ("D", {})],
    capabilities := some [] }

/-- A document whose profile A has a numeric entry in "capabilities". -/
def docBadCap : ProfilesData :=
  { profiles := some [("A", { capabilities := [Json.num 42] })],
    capabilities := some [] }

/-- A profiles file named f1 defining profile P. -/
def exFile1 : PFile :=
  ⟨"f1", { profiles := some [("P", {})], capabilities := some [] }⟩

/-- A profiles file named f2 redefining P and also defining Q. -/
def exFile2 : PFile :=
  ⟨"f2", { profiles := some [("P", {}), ("Q", {})], capabilities := some [] }⟩

/-- Two roots: the higher-priority root 0 offers VP_x.json5, the
lower-priority root 1 offers VP_x.json. -/
def exRoots : List Root :=
  [{ profilesJson5 := ["VP_x"] }, { profilesJson := ["VP_x"] }]

/-- Modelled on the claim wording only (not on the source): the index of
the highest-priority (lowest-index) root that offers a profiles file with
the given stem, under either accepted suffix. -/
def specHighestOfferingRoot (roots : List Root) (s : String) : Option Nat :=
  (roots.enum.find? (fun p =>
    isVpStem s && (p.2.profilesJson.contains s || p.2.profilesJson5.contains s))).map
    Prod.fst

/-- The nine-tag primary vocabulary exactly as the spec words it. -/
def specPrimaryVocab : List String :=
  ["bitmask", "bits", "exact", "max", "min", "noauto", "not",
   "pot-incompatible-range", "struct"]

/-- The secondary vocabulary as the spec words it. -/
def specSecondaryVocab : List String :=
  ["mul", "pot"]

/-- Modelled on the claim wording only (not on the source): does the claim
say that constructing a limit descriptor from this tag list succeeds? -/
def specClaimAcceptsLimitTypes (ts : List LimitType) : Bool :=
  match ts with
  | [] => false
  | t0 :: rest =>
    specPrimaryVocab.contains t0.toXmlName &&
    (match rest with
     | [] => true
     | t1 :: rest2 =>
       specSecondaryVocab.contains t1.toXmlName && rest2.isEmpty)

/-- The XML model of claim C9: structs Foo {a : int, b : Bar} and
Bar {x : int}, no aliases. -/
def xmlFooBar : RegXML :=
  { structInfo := [("Foo", [("a", "int"), ("b", "Bar")]), ("Bar", [("x", "int")])] }

/-- An XML model with no struct layouts at all. -/
def xmlEmpty : RegXML := {}

/-- An XML model with a single struct Foo {a : int, b : int}. -/
def xmlFlatFoo : RegXML :=
  { structInfo := [("Foo", [("a", "int"), ("b", "int")])] }

/- ## Claim theorems, concrete part -/

/-- C1: loading a document that redefines an already-committed profile name
does not raise a ProfileRedefinitionError carrying the original profile and
the offending file.  After committing P from file f1, loading file f2 (which
defines P and Q) raises NameError, because the raise statement reads the
unbound local `reg_file`; the error is raised before anything is committed,
so the no-partial-commit half of the claim does hold. -/
theorem loadProfilesFile_redefinition_raises_nameError :
    loadProfilesFile ⟨[], []⟩ exFile1 = .ok (["P"], ⟨[("P", "f1")], ["f1"]⟩) ∧
    loadProfilesFile ⟨[("P", "f1")], ["f1"]⟩ exFile2 = .error (.nameError "reg_file") := by
  constructor <;> rfl

/-- C4: the internal-dependency traversal does not always survive a
diamond-shaped reference graph.  In docDiamond, profiles C and E both push
the unvisited name D; the second pop of D fails the assertion
`profile_name not in visited` and the traversal raises AssertionError. -/
theorem internalDeps_diamond_assertion_fails :
    getProfileInternalDeps docDiamond 10 "A" = .error .assertionError := by
  rfl

/-- C5: a capabilities element that is neither a string nor a sequence does
not produce a ValidationError naming the owning document.  The error path
reads `self.file.reg_file.path`, but ProfilesFile has no attribute `file`,
so Python raises AttributeError before the ValidationError is constructed. -/
theorem collectCaps_bad_element_raises_attributeError :
    getProfileInternalDeps docBadCap 10 "A" =
      .error (.attributeError "ProfilesFile object has no attribute file") := by
  rfl

/-- C6: looking up the singular vk.xml registry file returns it when
present, but when it is absent the lookup raises AttributeError for both
values of missing_ok: the code tests `reg_file.name is not None` on the
None returned by the table lookup, so neither the None result nor the
RegistryFileNotFoundError path is ever reached. -/
theorem getVkXmlFile_absent_raises_attributeError :
    getVkXmlFile [("vk.xml", "/root0/vk.xml")] false = .ok (some "/root0/vk.xml") ∧
    getVkXmlFile [] true = .error (.attributeError "NoneType object has no attribute name") ∧
    getVkXmlFile [] false = .error (.attributeError "NoneType object has no attribute name") := by
  refine ⟨rfl, rfl, rfl⟩

/-- C9: struct-aware normalization of the Foo instance
{b: {x: 1, z: 2}, extra: 3} returns exactly {b: {x: 1}}: the member a,
missing from the instance, is skipped; z and extra, absent from the
layouts, are dropped.  The second conjunct shows the emitted member order:
an instance listing b before a is emitted in the layout order a, b. -/
theorem structToJsonObj_foo_example :
    structToJsonObj xmlFooBar 3 "Foo"
        [("b", Json.obj [("x", Json.num 1), ("z", Json.num 2)]), ("extra", Json.num 3)]
      = .ok [("b", Json.obj [("x", Json.num 1)])] ∧
    structToJsonObj xmlFooBar 3 "Foo"
        [("b", Json.obj [("x", Json.num 1)]), ("a", Json.num 7)]
      = .ok [("a", Json.num 7), ("b", Json.obj [("x", Json.num 1)])] := by
  constructor <;> rfl

/-- C2 counterexample: with root 0 offering VP_x.json5 and root 1 offering
VP_x.json, discovery associates the key VP_x with the file from root 1,
although the highest-priority root offering that key is root 0: the json
pass over all roots runs before the json5 pass, so suffix order beats root
priority. -/
theorem collectProfilesFiles_json5_loses_counterexample :
    alookup (collectProfilesFiles exRoots) "VP_x" = some ⟨1, "VP_x", Ext.json⟩ ∧
    specHighestOfferingRoot exRoots "VP_x" = some 0 := by
  constructor <;> decide

/-- C8 counterexample: constructing a limit descriptor whose single parsed
tag is `range` succeeds, although the nine-tag vocabulary stated by the
spec does not contain "range" (it lists "pot-incompatible-range" instead),
so the claim's acceptance condition says this construction must fail. -/
theorem limitPostInit_range_counterexample :
    exOk (limitPostInit [LimitType.range]) = true ∧
    specClaimAcceptsLimitTypes [LimitType.range] = false := by
  constructor <;> rfl

/-- C10 counterexample: when the struct name has no known layout,
struct-aware normalization returns the instance unchanged, so an instance
with a null-valued member yields an output that still contains that
null-valued member. -/
theorem structToJsonObj_unknown_struct_keeps_null :
    structToJsonObj xmlEmpty 1 "Foo" [("a", Json.null)] = .ok [("a", Json.null)] := by
  rfl

/- ## Name normalization (C7) -/

theorem normalizeVkName_result_no_entry {t : List (String × String)} :
    ∀ {f : Nat} {n r : String}, normalizeVkName f t n = some r → alookup t r = none := by
  intro f
  induction f with
  | zero => intro n r h; simp [normalizeVkName] at h
  | succ f ih =>
    intro n r h
    rw [normalizeVkName] at h
    cases he : alookup t n with
    | none =>
      rw [he] at h
      cases h
      exact he
    | some m =>
      rw [he] at h
      exact ih h

theorem normalizeVkName_terminates {t : List (String × String)} {μ : String → Nat}
    (hacyc : ∀ a b, alookup t a = some b → μ b < μ a) :
    ∀ (f : Nat) (n : String), μ n < f → ∃ r, normalizeVkName f t n = some r := by
  intro f
  induction f with
  | zero => intro n h; omega
  | succ f ih =>
    intro n _
    rw [normalizeVkName]
    cases he : alookup t n with
    | none => exact ⟨n, rfl⟩
    | some m =>
      have hlt := hacyc n m he
      exact ih m (by omega)

/-- C7: over an alias table that is acyclic, in the sense that some measure
strictly decreases along every table entry, normalize_vk_name terminates
(with fuel measure-of-n + 1), its result equals the input name exactly when
the name has no alias-table entry, and it is idempotent: running it again
on the result returns the result. -/
theorem normalizeVkName_fixed_point_iff_idempotent
    (t : List (String × String)) (μ : String → Nat)
    (hacyc : ∀ a b, alookup t a = some b → μ b < μ a) (n : String) :
    ∃ r, normalizeVkName (μ n + 1) t n = some r ∧
      (r = n ↔ alookup t n = none) ∧
      normalizeVkName (μ r + 1) t r = some r := by
  obtain ⟨r, hr⟩ := normalizeVkName_terminates hacyc (μ n + 1) n (by omega)
  have hnone := normalizeVkName_result_no_entry hr
  refine ⟨r, hr, ⟨fun hrn => hrn ▸ hnone, fun hn => ?_⟩, ?_⟩
  · rw [normalizeVkName, hn] at hr
    exact (Option.some.inj hr).symm
  · rw [normalizeVkName, hnone]

/-- The alias table of the spec's worked example: OldX to NewX to Newest. -/
def exAliases : List (String × String) := [("OldX", "NewX"), ("NewX", "Newest")]

/-- A decreasing measure witnessing that exAliases is acyclic. -/
def exAliasMeasure : String → Nat :=
  fun n => if n = "OldX" then 2 else if n = "NewX" then 1 else 0

theorem exAliases_acyclic :
    ∀ a b, alookup exAliases a = some b → exAliasMeasure b < exAliasMeasure a := by
  intro a b h
  simp only [exAliases, alookup] at h
  by_cases h1 : "OldX" = a
  · rw [if_pos h1] at h
    cases h
    subst h1
    decide
  · rw [if_neg h1] at h
    by_cases h2 : "NewX" = a
    · rw [if_pos h2] at h
      cases h
      subst h2
      decide
    · rw [if_neg h2] at h
      cases h

/-- C7 witness: the theorem applied to the two-entry alias table
{OldX: NewX, NewX: Newest} and the name OldX. -/
theorem normalizeVkName_fixed_point_iff_idempotent_witness :
    ∃ r, normalizeVkName (exAliasMeasure "OldX" + 1) exAliases "OldX" = some r ∧
      (r = "OldX" ↔ alookup exAliases "OldX" = none) ∧
      normalizeVkName (exAliasMeasure r + 1) exAliases r = some r :=
  normalizeVkName_fixed_point_iff_idempotent exAliases exAliasMeasure
    exAliases_acyclic "OldX"

/- ## Discovery dedup (C2) -/

theorem alookup_collect_fold (l : List FoundFile) :
    ∀ (acc : List (String × FoundFile)) (s : String),
      alookup (l.foldl
        (fun acc f => if (alookup acc f.stem).isSome then acc else acc ++ [(f.stem, f)])
        acc) s =
      match alookup acc s with
      | some v => some v
      | none => l.find? (fun f => f.stem = s) := by
  induction l with
  | nil =>
    intro acc s
    cases h : alookup acc s <;> simp [h]
  | cons f l ih =>
    intro acc s
    rw [List.foldl_cons, ih]
    by_cases hfs : f.stem = s
    · subst hfs
      cases hs : alookup acc f.stem with
      | some v => simp [hs]
      | none =>
        have : alookup (acc ++ [(f.stem, f)]) f.stem = some f := by
          rw [alookup_append, hs]
          simp [alookup]
        simp [hs, this, List.find?]
    · have hstep : alookup (if (alookup acc f.stem).isSome then acc
          else acc ++ [(f.stem, f)]) s = alookup acc s := by
        split
        · rfl
        · rw [alookup_append]
          cases h : alookup acc s <;> simp [h, alookup, hfs]
      rw [hstep]
      cases h : alookup acc s with
      | some v => simp
      | none => simp [List.find?, hfs]

theorem collect_fold_keys_nodup (l : List FoundFile) :
    ∀ (acc : List (String × FoundFile)), (acc.map Prod.fst).Nodup →
      ((l.foldl
        (fun acc f => if (alookup acc f.stem).isSome then acc else acc ++ [(f.stem, f)])
        acc).map Prod.fst).Nodup := by
  induction l with
  | nil => intro acc h; exact h
  | cons f l ih =>
    intro acc h
    rw [List.foldl_cons]
    apply ih
    cases hs : alookup acc f.stem with
    | some v => simpa [hs] using h
    | none =>
      have hnotmem : f.stem ∉ acc.map Prod.fst := (alookup_eq_none_iff acc f.stem).mp hs
      simp [hs, List.nodup_append, h, hnotmem]

/-- C2 amended: discovery produces at most one entry per key, and the
entry's path is the first match of the scan sequence for that key, where
the scan sequence is all json matches over the roots in priority order
followed by all json5 matches over the roots in priority order (so within
one suffix the highest-priority root wins, but any json match beats a
json5 match in a higher-priority root). -/
theorem collectProfilesFiles_unique_first_match (roots : List Root) (s : String) :
    ((collectProfilesFiles roots).map Prod.fst).Nodup ∧
    alookup (collectProfilesFiles roots) s =
      (profilesScanSeq roots).find? (fun f => f.stem = s) := by
  unfold collectProfilesFiles
  refine ⟨collect_fold_keys_nodup _ [] (by simp), ?_⟩
  rw [alookup_collect_fold]
  simp [alookup]

/- ## Limit descriptor construction (C8) -/

/-- Is this call outcome either a success or an XmlError that carries no
element reference? -/
def limitErrShapeOk {α : Type} : Except PyErr α → Bool
  | .ok _ => true
  | .error (.xmlError _ false) => true
  | .error _ => false

/-- Modelled on the amended claim wording: the nine-tag primary vocabulary
with "range" in place of the "pot-incompatible-range" the spec names. -/
def specAmendedPrimaryVocab : List String :=
  ["bitmask", "bits", "exact", "max", "min", "noauto", "not", "range", "struct"]

/-- Modelled on the amended claim wording: does the tag list have one or
two tags, the first in the amended primary vocabulary, the second (if
present) in {mul, pot}? -/
def specAmendedAcceptsLimitTypes (ts : List LimitType) : Bool :=
  match ts with
  | [] => false
  | t0 :: rest =>
    specAmendedPrimaryVocab.contains t0.toXmlName &&
    (match rest with
     | [] => true
     | t1 :: rest2 =>
       specSecondaryVocab.contains t1.toXmlName && rest2.isEmpty)

/-- C8 amended: constructing a limit descriptor succeeds exactly when the
parsed tag list has one or two tags, the first belonging to the nine-tag
vocabulary {bitmask, bits, exact, max, min, noauto, not, range, struct}
(the source has range, not the pot-incompatible-range the spec states),
and the second, if present, belonging to {mul, pot}; every rejection is an
XmlError built from a message only, with no owning element attached. -/
theorem limitPostInit_matches_amended_shape (ts : List LimitType) :
    exOk (limitPostInit ts) = specAmendedAcceptsLimitTypes ts ∧
    limitErrShapeOk (limitPostInit ts) = true := by
  match ts with
  | [] => exact ⟨rfl, rfl⟩
  | [t0] => cases t0 <;> exact ⟨rfl, rfl⟩
  | [t0, t1] => cases t0 <;> cases t1 <;> exact ⟨rfl, rfl⟩
  | t0 :: t1 :: t2 :: rest => cases t0 <;> cases t1 <;> exact ⟨rfl, rfl⟩

/- ## Struct-aware normalization and null members (C10) -/

theorem structMembersLoop_no_null
    (recur : String → List (String × Json) → Except PyErr (List (String × Json)))
    (xml : RegXML) (structObj : List (String × Json)) :
    ∀ (members : List (String × String)) (out : List (String × Json)),
      structMembersLoop recur xml structObj members = .ok out →
      ∀ kv ∈ out, kv.2.isNull = false := by
  intro members
  induction members with
  | nil =>
    intro out h kv hkv
    rw [structMembersLoop] at h
    cases h
    simp at hkv
  | cons m rest ih =>
    intro out h kv hkv
    obtain ⟨mName, mBase⟩ := m
    rw [structMembersLoop] at h
    split at h
    · exact ih out h kv hkv
    · next v hl =>
      split at h
      · exact ih out h kv hkv
      · next hvnull =>
        split at h
        · cases h
        · split at h
          · split at h
            · next kvs =>
              split at h
              · cases h
              · next kvs' hrec =>
                split at h
                · cases h
                · next out' hloop =>
                  cases h
                  rcases List.mem_cons.mp hkv with hhd | htl
                  · subst hhd; rfl
                  · exact ih out' hloop kv htl
            · cases h
          · split at h
            · cases h
            · next out' hloop =>
              cases h
              rcases List.mem_cons.mp hkv with hhd | htl
              · subst hhd
                simpa using hvnull
              · exact ih out' hloop kv htl

theorem alookup_filter_not_null_of_none (l : List (String × Json)) (k : String)
    (h : alookup l k = none) : alookup (stripNullMembers l) k = none := by
  rw [alookup_eq_none_iff] at h ⊢
  intro hmem
  exact h (by
    obtain ⟨kv, hkv, hfst⟩ := List.mem_map.mp hmem
    exact List.mem_map.mpr ⟨kv, List.mem_of_mem_filter hkv, hfst⟩)

theorem alookup_stripNullMembers (obj : List (String × Json))
    (hnd : (obj.map Prod.fst).Nodup) (k : String) :
    alookup (stripNullMembers obj) k =
      match alookup obj k with
      | none => none
      | some v => if v.isNull then none else some v := by
  induction obj with
  | nil => simp [stripNullMembers, alookup]
  | cons kv t ih =>
    obtain ⟨k0, v0⟩ := kv
    simp only [List.map_cons, List.nodup_cons] at hnd
    obtain ⟨hk0, hndt⟩ := hnd
    by_cases hv0 : v0.isNull
    · by_cases hk : k0 = k
      · subst hk
        have ht : alookup t k0 = none := (alookup_eq_none_iff t k0).mpr hk0
        have hs := alookup_filter_not_null_of_none t k0 ht
        simp only [stripNullMembers, List.filter_cons] at hs ⊢
        rw [show (!(k0, v0).2.isNull) = false by simpa using hv0]
        simp only [Bool.false_eq_true, if_false]
        rw [hs]
        simp [alookup, hv0]
      · simp only [stripNullMembers, List.filter_cons] at ih ⊢
        rw [show (!(k0, v0).2.isNull) = false by simpa using hv0]
        simp only [Bool.false_eq_true, if_false]
        rw [ih hndt]
        simp [alookup, hk]
    · simp only [stripNullMembers, List.filter_cons] at ih ⊢
      rw [show (!(k0, v0).2.isNull) = true by simpa using hv0]
      simp only [if_true]
      by_cases hk : k0 = k
      · subst hk
        simp [alookup, hv0]
      · simp only [alookup, hk, if_neg hk]
        exact ih hndt

theorem structMembersLoop_strip
    (recur : String → List (String × Json) → Except PyErr (List (String × Json)))
    (xml : RegXML) (obj : List (String × Json)) (hnd : (obj.map Prod.fst).Nodup) :
    ∀ members, structMembersLoop recur xml (stripNullMembers obj) members
      = structMembersLoop recur xml obj members := by
  intro members
  induction members with
  | nil => rfl
  | cons m rest ih =>
    obtain ⟨mName, mBase⟩ := m
    simp only [structMembersLoop]
    rw [alookup_stripNullMembers obj hnd mName, ih]
    cases hl : alookup obj mName with
    | none => rfl
    | some v =>
      by_cases hv : v.isNull
      · simp [hv]
      · simp [hv]

/-- C10 amended: when the normalized struct name has a known layout and
the instance has no duplicate member names, a member whose value is the
JSON null literal is treated exactly like a missing member (the result on
the null-stripped instance is the same), and no member of the emitted
object has a null value.  (When the struct name is unknown the instance is
returned unchanged, nulls included, as the counterexample shows.) -/
theorem structToJsonObj_null_member_eq_missing
    (xml : RegXML) (fuel : Nat) (structName nName : String)
    (structObj out : List (String × Json)) (members : List (String × String))
    (hnorm : normName xml.aliases structName = some nName)
    (hinfo : alookup xml.structInfo nName = some members)
    (hnd : (structObj.map Prod.fst).Nodup)
    (hrun : structToJsonObj xml fuel structName structObj = .ok out) :
    structToJsonObj xml fuel structName (stripNullMembers structObj) = .ok out ∧
    ∀ kv ∈ out, kv.2.isNull = false := by
  cases fuel with
  | zero => cases hrun
  | succ fuel =>
    rw [structToJsonObj] at hrun
    simp only [hnorm, hinfo] at hrun
    constructor
    · rw [structToJsonObj]
      simp only [hnorm, hinfo]
      rw [structMembersLoop_strip _ xml structObj hnd]
      exact hrun
    · exact structMembersLoop_no_null _ xml structObj members out hrun

/-- C10 witness: the amended theorem applied to the struct Foo with layout
{a : int, b : int} and the instance {a: null, b: 1}, whose normalization
output is {b: 1}; stripping the null member first gives the same output. -/
theorem structToJsonObj_null_member_eq_missing_witness :
    structToJsonObj xmlFlatFoo 2 "Foo"
        (stripNullMembers [("a", Json.null), ("b", Json.num 1)])
      = .ok [("b", Json.num 1)] :=
  (structToJsonObj_null_member_eq_missing xmlFlatFoo 2 "Foo" "Foo"
    [("a", Json.null), ("b", Json.num 1)] [("b", Json.num 1)]
    [("a", "int"), ("b", "int")] rfl rfl (by simp) rfl).1

/- ## Trim round trip (C3) -/

theorem collectProfilesLoop_mono (d : ProfilesData) :
    ∀ (f : Nat) (vis st lp ep lpF epF : List String),
      collectProfilesLoop d f vis st lp ep = .ok (lpF, epF) →
      (∀ x ∈ lp, x ∈ lpF) ∧ (∀ x ∈ ep, x ∈ epF) := by
  intro f
  induction f with
  | zero => intro vis st lp ep lpF epF h; cases h
  | succ f ih =>
    intro vis st lp ep lpF epF h
    cases st with
    | nil =>
      simp only [collectProfilesLoop] at h
      cases h
      exact ⟨fun x hx => hx, fun x hx => hx⟩
    | cons name rest =>
      simp only [collectProfilesLoop] at h
      by_cases hv : name ∈ vis
      · rw [if_pos hv] at h; cases h
      · rw [if_neg hv] at h
        cases ho : getProfileObj d name with
        | none =>
          rw [ho] at h
          obtain ⟨h1, h2⟩ := ih _ _ _ _ _ _ h
          exact ⟨h1, fun x hx => h2 x (mem_addName _ _ _ hx)⟩
        | some obj =>
          rw [ho] at h
          obtain ⟨h1, h2⟩ := ih _ _ _ _ _ _ h
          exact ⟨fun x hx => h1 x (mem_addName _ _ _ hx), h2⟩

theorem collectProfilesLoop_congr (d d' : ProfilesData) :
    ∀ (f : Nat) (vis st lp ep lpF epF : List String),
      collectProfilesLoop d f vis st lp ep = .ok (lpF, epF) →
      (∀ n, (n ∈ lpF ∨ n ∈ epF) → getProfileObj d' n = getProfileObj d n) →
      collectProfilesLoop d' f vis st lp ep = .ok (lpF, epF) := by
  intro f
  induction f with
  | zero => intro vis st lp ep lpF epF h _; cases h
  | succ f ih =>
    intro vis st lp ep lpF epF h hagree
    cases st with
    | nil => simpa [collectProfilesLoop] using h
    | cons name rest =>
      simp only [collectProfilesLoop] at h ⊢
      by_cases hv : name ∈ vis
      · rw [if_pos hv] at h; cases h
      · rw [if_neg hv] at h
        rw [if_neg hv]
        cases ho : getProfileObj d name with
        | none =>
          rw [ho] at h
          have hnameF : name ∈ epF :=
            (collectProfilesLoop_mono d f _ _ _ _ _ _ h).2 name (self_mem_addName _ _)
          rw [hagree name (Or.inr hnameF), ho]
          exact ih _ _ _ _ _ _ h hagree
        | some obj =>
          rw [ho] at h
          have hnameF : name ∈ lpF :=
            (collectProfilesLoop_mono d f _ _ _ _ _ _ h).1 name (self_mem_addName _ _)
          rw [hagree name (Or.inl hnameF), ho]
          exact ih _ _ _ _ _ _ h hagree

theorem collectCaps_congr (d d' : ProfilesData) (fuel : Nat) :
    ∀ (names acc : List String),
      (∀ n ∈ names, getProfileObj d' n = getProfileObj d n) →
      collectCaps d' fuel acc names = collectCaps d fuel acc names := by
  intro names
  induction names with
  | nil => intro acc _; rfl
  | cons pname ps ih =>
    intro acc hag
    have h1 := hag pname (List.mem_cons_self _ _)
    cases ho : getProfileObj d pname with
    | none => simp only [collectCaps, h1, ho]
    | some obj =>
      simp only [collectCaps, h1, ho]
      cases hcl : collectCapsLoop fuel acc ((obj.capabilities ++ obj.optionals).reverse) with
      | error e => simp only [hcl]
      | ok acc' =>
        simp only [hcl]
        exact ih acc' (fun n hn => hag n (List.mem_cons_of_mem _ hn))

/-- C3: when computing the internal dependencies of X succeeds and
trimming the document to X succeeds, recomputing the internal dependencies
on the trimmed document gives the very same result (in particular the same
local_profile_names and local_cap_names), and the trimmed document keeps
no profile entry outside local ∪ external and no capability entry outside
local_cap_names. -/
theorem trimToProfile_roundtrip
    (d : ProfilesData) (fuel : Nat) (X : String) (deps : IDeps) (d' : ProfilesData)
    (hdeps : getProfileInternalDeps d fuel X = .ok deps)
    (htrim : trimToProfile d fuel X = .ok d') :
    getProfileInternalDeps d' fuel X = .ok deps ∧
    (∀ ps', d'.profiles = some ps' →
      ∀ kv ∈ ps', kv.1 ∈ deps.localProfileNames ∨ kv.1 ∈ deps.externalProfileNames) ∧
    (∀ cs', d'.capabilities = some cs' → ∀ kv ∈ cs', kv.1 ∈ deps.localCapNames) := by
  unfold getProfileInternalDeps at hdeps
  cases hcp : collectProfilesLoop d fuel [] [X] [] [] with
  | error e => simp only [hcp] at hdeps; cases hdeps
  | ok pr =>
    obtain ⟨lp, ep⟩ := pr
    simp only [hcp] at hdeps
    cases hcc : collectCaps d fuel [] lp with
    | error e => simp only [hcc] at hdeps; cases hdeps
    | ok caps =>
      simp only [hcc] at hdeps
      have hdeq : deps = ⟨lp, caps, ep⟩ := by cases hdeps; rfl
      subst hdeq
      unfold trimToProfile getProfileInternalDeps at htrim
      simp only [hcp, hcc] at htrim
      cases hps : d.profiles with
      | none => simp only [hps] at htrim; cases htrim
      | some ps =>
        simp only [hps] at htrim
        cases hcs : d.capabilities with
        | none => simp only [hcs] at htrim; cases htrim
        | some cs =>
          simp only [hcs] at htrim
          have hd' : d' =
              { profiles := some (ps.filter (fun kv => decide (kv.1 ∈ lp ++ ep))),
                capabilities := some (cs.filter (fun kv => decide (kv.1 ∈ caps))) } := by
            cases htrim; rfl
          subst hd'
          have hagree : ∀ n, (n ∈ lp ∨ n ∈ ep) →
              getProfileObj
                { profiles := some (ps.filter (fun kv => decide (kv.1 ∈ lp ++ ep))),
                  capabilities := some (cs.filter (fun kv => decide (kv.1 ∈ caps))) } n
              = getProfileObj d n := by
            intro n hn
            show alookup (ps.filter (fun kv => decide (kv.1 ∈ lp ++ ep))) n = _
            rw [alookup_filter_key (fun x => decide (x ∈ lp ++ ep)) ps n]
            rw [if_pos (by simpa using hn)]
            unfold getProfileObj
            rw [hps]
          refine ⟨?_, ?_, ?_⟩
          · unfold getProfileInternalDeps
            simp only [collectProfilesLoop_congr d _ fuel [] [X] [] [] lp ep hcp
                (fun n hn => hagree n hn),
              collectCaps_congr d _ fuel lp []
                (fun n hn => hagree n (Or.inl hn)),
              hcc]
          · intro ps' hps' kv hkv
            cases hps'
            have := List.mem_filter.mp hkv
            simpa using this.2
          · intro cs' hcs' kv hkv
            cases hcs'
            have := List.mem_filter.mp hkv
            simpa using this.2

/-- A document for the round-trip witness: A references local B and
external Z, with nested capability groups; D is unreachable from A. -/
def docRound : ProfilesData :=
  { profiles := some
      [("A", { profileRefs := ["B", "Z"],
               capabilities := [Json.str "c0", Json.arr [Json.str "c1", Json.str "c2"]] }),
       ("B", { capabilities := [Json.str "c3"], optionals := [Json.str "c5"] }),
       ("D", { capabilities := [Json.str "c7"] })],
    capabilities := some
      [("c0", Json.num 0), ("c3", Json.num 3), ("c7", Json.num 7)] }

/-- The internal dependencies of A in docRound. -/
def depsRound : IDeps :=
  ⟨["A", "B"], ["c2", "c1", "c0", "c5", "c3"], ["Z"]⟩

/-- docRound after trim_to_profile("A"): D and c7 are gone. -/
def docRoundTrimmed : ProfilesData :=
  { profiles := some
      [("A", { profileRefs := ["B", "Z"],
               capabilities := [Json.str "c0", Json.arr [Json.str "c1", Json.str "c2"]] }),
       ("B", { capabilities := [Json.str "c3"], optionals := [Json.str "c5"] })],
    capabilities := some
      [("c0", Json.num 0), ("c3", Json.num 3)] }

/-- C3 witness: the round-trip theorem applied to docRound and profile A;
the trimmed document reproduces exactly the original dependency sets. -/
theorem trimToProfile_roundtrip_witness :
    getProfileInternalDeps docRoundTrimmed 10 "A" = .ok depsRound :=
  (trimToProfile_roundtrip docRound 10 "A" depsRound docRoundTrimmed rfl rfl).1

end VkTower
